import Mathlib

/-!
Verification of the SVM transaction codec, nibble reader, wire parser and
C-API surface against their natural-language specification.

Rust source is embedded shallowly: byte buffers are `List Nat` (each element
a byte value), machine integers are `Nat`, fallible code returns `Except`
or `Option`, and a Rust panic is the `Crash.crash` outcome.
-/

/-- Outcome of a computation that may panic (Rust `panic!` / failed `assert!`
/ `unwrap` on an `Err`): either a crash or a value. -/
inductive Crash (α : Type) : Type
| crash : Crash α
| ok (a : α) : Crash α
deriving DecidableEq, Repr

deriving instance DecidableEq for Except

/-- Is `b` a UTF-8 continuation byte (`0x80 ..= 0xBF`)? -/
def isCont (b : Nat) : Bool := 0x80 ≤ b && b ≤ 0xBF

/-- Modelled from the spec: `String::from_utf8` validity ("valid UTF-8",
spec section 4.2); the Rust standard-library validator is not part of the
sources.  Full UTF-8 well-formedness over a byte list, including overlong
forms and the surrogate range. -/
def validUtf8 : List Nat → Bool
| [] => true
| b :: rest =>
  if b ≤ 0x7F then validUtf8 rest
  else if 0xC2 ≤ b && b ≤ 0xDF then
    match rest with
    | c1 :: r => isCont c1 && validUtf8 r
    | _ => false
  else if b = 0xE0 then
    match rest with
    | c1 :: c2 :: r => (0xA0 ≤ c1 && c1 ≤ 0xBF) && isCont c2 && validUtf8 r
    | _ => false
  else if 0xE1 ≤ b && b ≤ 0xEC then
    match rest with
    | c1 :: c2 :: r => isCont c1 && isCont c2 && validUtf8 r
    | _ => false
  else if b = 0xED then
    match rest with
    | c1 :: c2 :: r => (0x80 ≤ c1 && c1 ≤ 0x9F) && isCont c2 && validUtf8 r
    | _ => false
  else if 0xEE ≤ b && b ≤ 0xEF then
    match rest with
    | c1 :: c2 :: r => isCont c1 && isCont c2 && validUtf8 r
    | _ => false
  else if b = 0xF0 then
    match rest with
    | c1 :: c2 :: c3 :: r => (0x90 ≤ c1 && c1 ≤ 0xBF) && isCont c2 && isCont c3 && validUtf8 r
    | _ => false
  else if 0xF1 ≤ b && b ≤ 0xF3 then
    match rest with
    | c1 :: c2 :: c3 :: r => isCont c1 && isCont c2 && isCont c3 && validUtf8 r
    | _ => false
  else if b = 0xF4 then
    match rest with
    | c1 :: c2 :: c3 :: r => (0x80 ≤ c1 && c1 ≤ 0x8F) && isCont c2 && isCont c3 && validUtf8 r
    | _ => false
  else false

namespace Nib

/-- State of `NibbleIter` (crates/svm-nibble/src/iter.rs). -/
structure NibbleIter where
  data : List Nat
  length : Nat
  cursor : Nat
  no_more_bytes : Bool
  last_byte : Option Nat
  nibbles_read : Nat
deriving DecidableEq, Repr

/-- `NibbleIter::new`. -/
def NibbleIter.new (data : List Nat) : NibbleIter :=
  { data := data, length := data.length, cursor := 0,
    no_more_bytes := false, last_byte := none, nibbles_read := 0 }

/-- `NibbleIter::is_byte_aligned`: the number of nibbles read so far is even. -/
def NibbleIter.is_byte_aligned (s : NibbleIter) : Bool :=
  s.nibbles_read % 2 == 0

/-- `Iterator::next for NibbleIter`: yields the next nibble (high nibble of a
freshly fetched byte first, then its low nibble), or `none` once the buffer
is exhausted. -/
def NibbleIter.next (s : NibbleIter) : Option Nat × NibbleIter :=
  match s.last_byte with
  | none =>
    if s.no_more_bytes then (none, s)
    else if s.length ≤ s.cursor then (none, { s with no_more_bytes := true })
    else
      let byte := s.data.getD s.cursor 0
      (some (byte % 256 / 16),
       { s with last_byte := some byte, cursor := s.cursor + 1,
                nibbles_read := s.nibbles_read + 1 })
  | some byte =>
    (some (byte % 16), { s with last_byte := none, nibbles_read := s.nibbles_read + 1 })

/-- `NibbleIter::ensure_eof`: if not byte-aligned, consume one nibble (the
padding nibble), then succeed exactly when no nibble remains.  The source
`debug_assert!(nib.is_some())` is compiled out in release mode; the
characterisation theorem proves the asserted fact instead. -/
def NibbleIter.ensure_eof {E : Type} (s : NibbleIter) (err : E) : Except E Unit × NibbleIter :=
  let s1 := if s.is_byte_aligned = false then (s.next).2 else s
  let r := s1.next
  match r.1 with
  | none => (Except.ok (), r.2)
  | some _ => (Except.error err, r.2)

/-- Number of unread nibbles: one buffered low nibble (if any) plus two per
unread byte. -/
def remaining (s : NibbleIter) : Nat :=
  (match s.last_byte with
   | some _ => 1
   | none => 0) + 2 * (s.length - s.cursor)

/-- States of a `NibbleIter` reachable from `NibbleIter.new` by `next` steps:
the cursor stays in bounds, `length` caches the buffer length, a buffered low
nibble exists exactly after an odd number of reads, and the `no_more_bytes`
flag is only raised at the end of the buffer. -/
def Inv (s : NibbleIter) : Prop :=
  s.cursor ≤ s.length ∧ s.length = s.data.length ∧
  (s.last_byte = none ↔ s.nibbles_read % 2 = 0) ∧
  (s.no_more_bytes = true → s.cursor = s.length)

instance (s : NibbleIter) : Decidable (Inv s) := by
  unfold Inv
  infer_instance

theorem inv_new (data : List Nat) : Inv (NibbleIter.new data) := by
  simp [Inv, NibbleIter.new]

theorem next_of_rem_zero (s : NibbleIter) (hInv : Inv s) (h : remaining s = 0) :
    (s.next).1 = none ∧ remaining (s.next).2 = 0 ∧ Inv (s.next).2 := by
  obtain ⟨h1, h2, h3, h4⟩ := hInv
  cases hlb : s.last_byte with
  | some b =>
    simp [remaining, hlb] at h
  | none =>
    have hcur : s.cursor = s.length := by
      simp [remaining, hlb] at h
      omega
    cases hm : s.no_more_bytes with
    | true =>
      have hnext : s.next = (none, s) := by
        simp [NibbleIter.next, hlb, hm]
      rw [hnext]
      exact ⟨rfl, h, h1, h2, h3, h4⟩
    | false =>
      have hnext : s.next = (none, { s with no_more_bytes := true }) := by
        simp [NibbleIter.next, hlb, hm, hcur]
      rw [hnext]
      refine ⟨rfl, ?_, h1, h2, h3, fun _ => hcur⟩
      simpa [remaining] using h

theorem next_of_rem_pos (s : NibbleIter) (hInv : Inv s) (h : 0 < remaining s) :
    ∃ n, (s.next).1 = some n ∧ remaining (s.next).2 = remaining s - 1 ∧ Inv (s.next).2 := by
  obtain ⟨h1, h2, h3, h4⟩ := hInv
  cases hlb : s.last_byte with
  | some b =>
    have hodd : s.nibbles_read % 2 = 1 := by
      rcases Nat.mod_two_eq_zero_or_one s.nibbles_read with he | ho
      · exact absurd (h3.mpr he) (by simp [hlb])
      · exact ho
    have hnext2 : (s.next).2 = { s with last_byte := none, nibbles_read := s.nibbles_read + 1 } := by
      simp [NibbleIter.next, hlb]
    refine ⟨b % 16, by simp [NibbleIter.next, hlb], ?_, ?_⟩
    · rw [hnext2]
      simp [remaining, hlb]
    · rw [hnext2]
      refine ⟨h1, h2, ?_, h4⟩
      simp
      omega
  | none =>
    have hcur : s.cursor < s.length := by
      simp [remaining, hlb] at h
      omega
    have heven : s.nibbles_read % 2 = 0 := h3.mp hlb
    have hm : s.no_more_bytes = false := by
      cases hmm : s.no_more_bytes with
      | false => rfl
      | true => exact absurd (h4 hmm) (by omega)
    have hnext2 : (s.next).2 =
        { s with last_byte := some (s.data.getD s.cursor 0), cursor := s.cursor + 1,
                 nibbles_read := s.nibbles_read + 1 } := by
      simp [NibbleIter.next, hlb, hm, Nat.not_le.mpr hcur]
    refine ⟨(s.data.getD s.cursor 0) % 256 / 16,
      by simp [NibbleIter.next, hlb, hm, Nat.not_le.mpr hcur], ?_, ?_⟩
    · rw [hnext2]
      simp [remaining, hlb]
      omega
    · rw [hnext2]
      refine ⟨by simp; omega, ?_, ?_, by simp [hm]⟩
      · simpa using h2
      · simp
        omega

/-- C2: after any sequence of reads (any state satisfying the reachability
invariant), `ensure_eof` returns `Ok` exactly when zero nibbles remain (if
byte-aligned) or exactly one padding nibble remains (if not, and that nibble
is consumed), returns the supplied error exactly when more remains, and when
the reader is not byte-aligned at least one nibble always remains. -/
theorem ensure_eof_characterization {E : Type} (s : NibbleIter) (err : E) (hInv : Inv s) :
    (s.is_byte_aligned = false → 1 ≤ remaining s)
    ∧ ((s.ensure_eof err).1 = Except.ok () ↔
        (s.is_byte_aligned = true ∧ remaining s = 0) ∨
        (s.is_byte_aligned = false ∧ remaining s = 1))
    ∧ ((s.ensure_eof err).1 = Except.error err ↔
        (s.is_byte_aligned = true ∧ 1 ≤ remaining s) ∨
        (s.is_byte_aligned = false ∧ 2 ≤ remaining s))
    ∧ ((s.ensure_eof err).1 = Except.ok () → remaining (s.ensure_eof err).2 = 0) := by
  have hunal1 : s.is_byte_aligned = false → 1 ≤ remaining s := by
    intro hal
    cases hlb : s.last_byte with
    | some b => simp [remaining, hlb]
    | none =>
      exfalso
      have := hInv.2.2.1.mp hlb
      simp [NibbleIter.is_byte_aligned, this] at hal
  refine ⟨hunal1, ?_⟩
  cases hal : s.is_byte_aligned with
  | true =>
    rcases Nat.eq_zero_or_pos (remaining s) with hz | hp
    · obtain ⟨hn, hr, _⟩ := next_of_rem_zero s hInv hz
      have he : s.ensure_eof err = (Except.ok (), (s.next).2) := by
        simp [NibbleIter.ensure_eof, hal, hn]
      refine ⟨?_, ?_, ?_⟩
      · simp [he, hal, hz]
      · rw [he]
        simp [hal, hz]
      · intro _
        rw [he]
        exact hr
    · obtain ⟨n, hn, hr, _⟩ := next_of_rem_pos s hInv hp
      have he : s.ensure_eof err = (Except.error err, (s.next).2) := by
        simp [NibbleIter.ensure_eof, hal, hn]
      refine ⟨?_, ?_, ?_⟩
      · rw [he]
        simp [hal]
        omega
      · rw [he]
        simp [hal]
        omega
      · intro habs
        rw [he] at habs
        simp at habs
  | false =>
    have hpos : 0 < remaining s := by
      have := hunal1 hal
      omega
    obtain ⟨n, hn, hr, hInv1⟩ := next_of_rem_pos s hInv hpos
    rcases Nat.eq_zero_or_pos (remaining (s.next).2) with hz1 | hp1
    · obtain ⟨hn2, hr2, _⟩ := next_of_rem_zero (s.next).2 hInv1 hz1
      have he : s.ensure_eof err = (Except.ok (), ((s.next).2.next).2) := by
        simp [NibbleIter.ensure_eof, hal, hn2]
      refine ⟨?_, ?_, ?_⟩
      · rw [he]
        simp [hal]
        omega
      · rw [he]
        simp [hal]
        omega
      · intro _
        rw [he]
        exact hr2
    · obtain ⟨m, hm2, _, _⟩ := next_of_rem_pos (s.next).2 hInv1 hp1
      have he : s.ensure_eof err = (Except.error err, ((s.next).2.next).2) := by
        simp [NibbleIter.ensure_eof, hal, hm2]
      refine ⟨?_, ?_, ?_⟩
      · rw [he]
        simp [hal]
        omega
      · rw [he]
        simp [hal]
        omega
      · intro habs
        rw [he] at habs
        simp at habs

/-- Witness for C2: a reader over one byte that has read one nibble is not
byte-aligned and has exactly the one padding nibble left; `ensure_eof`
accepts it. -/
theorem ensure_eof_characterization_witness :
    Inv { data := [171], length := 1, cursor := 1, no_more_bytes := false,
          last_byte := some 171, nibbles_read := 1 }
    ∧ (({ data := [171], length := 1, cursor := 1, no_more_bytes := false,
          last_byte := some 171, nibbles_read := 1 } : NibbleIter).ensure_eof 7).1 = Except.ok () := by
  refine ⟨by decide, ?_⟩
  have h := ensure_eof_characterization
    { data := [171], length := 1, cursor := 1, no_more_bytes := false,
      last_byte := some 171, nibbles_read := 1 } 7 (by decide)
  exact h.2.1.mpr (Or.inr ⟨by decide, by decide⟩)

/-- `Iterator::take(n).collect()`: pull up to `n` nibbles, stopping early
at the first `None`. -/
def takeNibbles : Nat → NibbleIter → List Nat × NibbleIter
| 0, s => ([], s)
| n + 1, s =>
  let r := s.next
  match r.1 with
  | none => ([], r.2)
  | some v =>
    let rest := takeNibbles n r.2
    (v :: rest.1, rest.2)

/-- Modelled from the spec: `concat_nibbles` of the svm-nibble crate is not
under the shown sources; per the data model, two nibbles compose one byte,
most-significant nibble first, and the leftover odd nibble (if any) is
returned separately. -/
def concat_nibbles : List Nat → List Nat × Option Nat
| [] => ([], none)
| [n] => ([], some n)
| hi :: lo :: rest =>
  let r := concat_nibbles rest
  ((hi * 16 + lo) :: r.1, r.2)

/-- `NibbleIter::read_bytes`: collect `2 * count` nibbles (fewer if the
stream runs out) and pair them into bytes.  The source `debug_assert!` on
the leftover nibble is compiled out in release mode. -/
def NibbleIter.read_bytes (s : NibbleIter) (count : Nat) : List Nat × NibbleIter :=
  let nibbles := takeNibbles (2 * count) s
  ((concat_nibbles nibbles.1).1, nibbles.2)

/-- `NibbleIter::read_byte`, i.e. `self.read_bytes(1)[0]`: indexing the
returned vector panics when it is empty. -/
def NibbleIter.read_byte (s : NibbleIter) : Crash (Nat × NibbleIter) :=
  let r := s.read_bytes 1
  match r.1 with
  | [] => Crash.crash
  | b :: _ => Crash.ok (b, r.2)

theorem concat_nibbles_length : ∀ l : List Nat, (concat_nibbles l).1.length = l.length / 2
| [] => by simp [concat_nibbles]
| [n] => by simp [concat_nibbles]
| hi :: lo :: rest => by
  simp [concat_nibbles, concat_nibbles_length rest]
  omega

theorem takeNibbles_length (n : Nat) :
    ∀ s : NibbleIter, Inv s → (takeNibbles n s).1.length = min n (remaining s) := by
  induction n with
  | zero => intro s _; simp [takeNibbles]
  | succ k ih =>
    intro s hInv
    rcases Nat.eq_zero_or_pos (remaining s) with hz | hp
    · obtain ⟨hn, _, _⟩ := next_of_rem_zero s hInv hz
      simp [takeNibbles, hn, hz]
    · obtain ⟨v, hn, hr, hInv1⟩ := next_of_rem_pos s hInv hp
      simp [takeNibbles, hn, ih (s.next).2 hInv1, hr]
      omega

/-- C8: reading past the end of the stream is not an error at the
byte-reading interface.  With fewer than `2 * count` nibbles remaining,
`read_bytes count` returns a vector strictly shorter than `count` (its type
has no error channel at all), while `read_byte` on an exhausted stream
crashes (out-of-bounds index on an empty vector) instead of returning a
failure value. -/
theorem read_past_end_not_error (s : NibbleIter) (count : Nat) (hInv : Inv s)
    (hshort : remaining s < 2 * count) :
    (s.read_bytes count).1.length < count
    ∧ (remaining s = 0 → s.read_byte = Crash.crash) := by
  constructor
  · have hlen : (s.read_bytes count).1.length = remaining s / 2 := by
      simp [NibbleIter.read_bytes, concat_nibbles_length, takeNibbles_length _ s hInv]
      omega
    rw [hlen]
    omega
  · intro hz
    have hlen : (s.read_bytes 1).1.length = 0 := by
      simp [NibbleIter.read_bytes, concat_nibbles_length, takeNibbles_length _ s hInv, hz]
    have hnil : (s.read_bytes 1).1 = [] := List.length_eq_zero.mp hlen
    simp [NibbleIter.read_byte, hnil]

/-- Witness for C8: the empty stream has zero nibbles remaining, so
`read_bytes 1` yields the empty vector and `read_byte` crashes. -/
theorem read_past_end_not_error_witness :
    Inv (NibbleIter.new []) ∧ remaining (NibbleIter.new []) < 2 * 1
    ∧ ((NibbleIter.new []).read_bytes 1).1.length < 1
    ∧ (NibbleIter.new []).read_byte = Crash.crash := by
  have h := read_past_end_not_error (NibbleIter.new []) 1 (by decide) (by decide)
  exact ⟨by decide, by decide, h.1, h.2 (by decide)⟩

end Nib

namespace Contract

/-- `wire/field.rs` field tags of the svm-contract wire format. -/
inductive Field : Type
| Version
| NameLength
| Name
| Author
| AdminsCount
| Admins
| DepsCount
| CodeLength
| Code
deriving DecidableEq, Repr

/-- `wire/error.rs` parse errors of the svm-contract wire format. -/
inductive Error : Type
| NotEnoughBytes (f : Field)
| UnsupportedProtoVersion (v : Nat)
| EmptyName
| NameNotValidUTF8String
| AdminsNotSupportedYet
| DepsNotSupportedYet
deriving DecidableEq, Repr

/-- `WasmContract` (crates/svm-contract/src/wasm). -/
structure WasmContract where
  name : List Nat
  wasm : List Nat
  author : List Nat
  admins : List (List Nat)
deriving DecidableEq, Repr

/-- `Cursor::read_u8`. -/
def read_u8 : List Nat → Option (Nat × List Nat)
| [] => none
| b :: r => some (b, r)

/-- `Cursor::read_u16::<BigEndian>`. -/
def read_u16_be : List Nat → Option (Nat × List Nat)
| a :: b :: r => some (a * 256 + b, r)
| _ => none

/-- `Cursor::read_u32::<BigEndian>`. -/
def read_u32_be : List Nat → Option (Nat × List Nat)
| a :: b :: c :: d :: r => some (((a * 256 + b) * 256 + c) * 256 + d, r)
| _ => none

/-- `Cursor::read_u64::<BigEndian>`. -/
def read_u64_be (l : List Nat) : Option (Nat × List Nat) :=
  match read_u32_be l with
  | none => none
  | some (hi, r1) =>
    match read_u32_be r1 with
    | none => none
    | some (lo, r2) => some (hi * 4294967296 + lo, r2)

/-- `std::io::Read::read_exact` into a buffer of length `n`: fails when
fewer than `n` bytes remain, otherwise consumes exactly `n` bytes. -/
def read_exact (n : Nat) (l : List Nat) : Option (List Nat × List Nat) :=
  if l.length < n then none else some (l.take n, l.drop n)

/-- `parse_version` (wire/parse.rs): a big-endian `u32` that must be 0. -/
def parse_version (cursor : List Nat) : Except Error (Nat × List Nat) :=
  match read_u32_be cursor with
  | none => Except.error (Error.NotEnoughBytes Field.Version)
  | some (version, cur1) =>
    if version ≠ 0 then Except.error (Error.UnsupportedProtoVersion version)
    else Except.ok (version, cur1)

/-- `parse_name` (wire/parse.rs), embedded with its two source defects kept:
`Vec::with_capacity(name_len)` creates a vector of length zero, so
`read_exact` reads zero bytes and always succeeds; and the final check is
inverted — the `is_err` branch returns `Ok(name.unwrap())` (a panic on an
`Err`) while the success branch returns `Err(NameNotValidUTF8String)`. -/
def parse_name (cursor : List Nat) : Crash (Except Error (List Nat × List Nat)) :=
  match read_u8 cursor with
  | none => Crash.ok (Except.error (Error.NotEnoughBytes Field.NameLength))
  | some (name_len, cur1) =>
    if name_len = 0 then Crash.ok (Except.error Error.EmptyName)
    else
      let name_buf : List Nat := []
      match read_exact name_buf.length cur1 with
      | none => Crash.ok (Except.error (Error.NotEnoughBytes Field.Name))
      | some (buf, _cur2) =>
        let name : Except Unit (List Nat) :=
          if validUtf8 buf then Except.ok buf else Except.error ()
        match name with
        | Except.error _ => Crash.crash
        | Except.ok _ => Crash.ok (Except.error Error.NameNotValidUTF8String)

/-- `parse_address` (wire/parse.rs): 32 raw bytes. -/
def parse_address (cursor : List Nat) (f : Field) : Except Error (List Nat × List Nat) :=
  match read_exact 32 cursor with
  | none => Except.error (Error.NotEnoughBytes f)
  | some (addr, cur1) => Except.ok (addr, cur1)

/-- `parse_author` (wire/parse.rs). -/
def parse_author (cursor : List Nat) : Except Error (List Nat × List Nat) :=
  parse_address cursor Field.Author

/-- `parse_admins` (wire/parse.rs): one count byte, rejected when non-zero;
the admin list itself is never parsed (commented out in the source). -/
def parse_admins (cursor : List Nat) : Except Error (List (List Nat) × List Nat) :=
  match read_u8 cursor with
  | none => Except.error (Error.NotEnoughBytes Field.AdminsCount)
  | some (admin_count, cur1) =>
    if 0 < admin_count then Except.error Error.AdminsNotSupportedYet
    else Except.ok ([], cur1)

/-- `parse_deps` (wire/parse.rs): one big-endian `u16` count, rejected when
non-zero. -/
def parse_deps (cursor : List Nat) : Except Error (List Nat) :=
  match read_u16_be cursor with
  | none => Except.error (Error.NotEnoughBytes Field.DepsCount)
  | some (deps_count, cur1) =>
    if 0 < deps_count then Except.error Error.DepsNotSupportedYet
    else Except.ok cur1

/-- `parse_code` (wire/parse.rs), with the same `with_capacity` defect:
the code buffer has length zero, so `read_exact` reads nothing. -/
def parse_code (cursor : List Nat) : Except Error (List Nat × List Nat) :=
  match read_u64_be cursor with
  | none => Except.error (Error.NotEnoughBytes Field.CodeLength)
  | some (_code_len, cur1) =>
    let code : List Nat := []
    match read_exact code.length cur1 with
    | none => Except.error (Error.NotEnoughBytes Field.Code)
    | some (code2, cur2) => Except.ok (code2, cur2)

/-- `parse_contract` (wire/parse.rs): version, name, author, admins, deps,
code, in that order. -/
def parse_contract (bytes : List Nat) : Crash (Except Error WasmContract) :=
  match parse_version bytes with
  | Except.error e => Crash.ok (Except.error e)
  | Except.ok (_version, c1) =>
    match parse_name c1 with
    | Crash.crash => Crash.crash
    | Crash.ok (Except.error e) => Crash.ok (Except.error e)
    | Crash.ok (Except.ok (name, c2)) =>
      match parse_author c2 with
      | Except.error e => Crash.ok (Except.error e)
      | Except.ok (author, c3) =>
        match parse_admins c3 with
        | Except.error e => Crash.ok (Except.error e)
        | Except.ok (admins, c4) =>
          match parse_deps c4 with
          | Except.error e => Crash.ok (Except.error e)
          | Except.ok c5 =>
            match parse_code c5 with
            | Except.error e => Crash.ok (Except.error e)
            | Except.ok (wasm, _c6) =>
              Crash.ok (Except.ok { name := name, wasm := wasm,
                                    author := author, admins := admins })

/-- C3 (code bug): on the buffer `[0x01, 0x41]` — length byte 1 followed by
the valid UTF-8 body "A" — `parse_name` should succeed with "A", but the
source's zero-length `with_capacity` buffer plus the inverted `is_err`
check make it return `NameNotValidUTF8String`; the `NotEnoughBytes(Name)`
branch is unreachable and a genuinely invalid-UTF-8 body is never even
read. -/
theorem parse_name_bug_eval :
    parse_name [1, 65] = Crash.ok (Except.error Error.NameNotValidUTF8String)
    ∧ parse_name [1] = Crash.ok (Except.error Error.NameNotValidUTF8String)
    ∧ parse_name [2, 0xC3, 0x28] = Crash.ok (Except.error Error.NameNotValidUTF8String)
    ∧ parse_name [0] = Crash.ok (Except.error Error.EmptyName)
    ∧ parse_name [] = Crash.ok (Except.error (Error.NotEnoughBytes Field.NameLength)) := by
  refine ⟨rfl, rfl, rfl, rfl, rfl⟩

/-- C4 (code bug): a buffer laid out as version 0, name "a", a 32-byte
author, admins-count 1, deps-count 0, code-length 0 should be rejected with
`AdminsNotSupportedYet`, but `parse_contract` returns
`NameNotValidUTF8String` because `parse_name` fails on every buffer whose
name-length byte is non-zero — the admins and deps counts are never
reached.  The sub-parsers themselves do behave as the claim states. -/
theorem parse_contract_admins_eval :
    parse_contract
      ([0, 0, 0, 0] ++ [1] ++ [97] ++ List.replicate 32 17 ++ [1] ++ [0, 0]
        ++ List.replicate 8 0)
      = Crash.ok (Except.error Error.NameNotValidUTF8String)
    ∧ parse_admins [1] = Except.error Error.AdminsNotSupportedYet
    ∧ parse_admins [0] = Except.ok ([], [])
    ∧ parse_deps [0, 1] = Except.error Error.DepsNotSupportedYet
    ∧ parse_deps [0, 0] = Except.ok [] := by
  refine ⟨rfl, rfl, rfl, rfl, rfl⟩

end Contract

namespace Codec

/-- Field tags of the svm-codec wire format (`api/raw::Field`). -/
inductive CFld : Type
| Version
| TemplateAddr
| NameLength
| Name
| Author
| CodeLength
| Code
| AbiDataLength
| AbiData
| DataLayoutLength
| DataLayout
deriving DecidableEq, Repr

/-- Parse errors of the svm-codec decoders (`error::ParseError`).
Modelled from the spec: decode fails distinctly for a missing length field,
a missing body and invalid UTF-8, each tagged with the field at fault. -/
inductive ParseError : Type
| NotEnoughNibbles (f : CFld)
| NotValidUTF8 (f : CFld)
deriving DecidableEq, Repr

/-- `App` (svm-types): version, name, template address.  Strings are kept
as their UTF-8 byte lists; addresses are 20-byte lists. -/
structure App where
  version : Nat
  name : List Nat
  template : List Nat
deriving DecidableEq, Repr

/-- `SpawnApp` (svm-types): an `App` plus constructor name and calldata. -/
structure SpawnApp where
  app : App
  ctor_name : List Nat
  calldata : List Nat
deriving DecidableEq, Repr

/-- `AppTemplate` (svm-types): version, name, code, data layout
(a list of slot sizes). -/
structure AppTemplate where
  version : Nat
  name : List Nat
  code : List Nat
  data : List Nat
deriving DecidableEq, Repr

/-- Modelled from the spec: the variable-width unsigned-integer nibble
encoding of `api::raw::encode_version` (not under the shown sources):
each emitted nibble carries three payload bits, with the top bit of every
nibble except the last set as a continuation flag (spec section 4.2).
This helper emits the leading groups, all with the continuation flag; it
recurses structurally on a fuel argument so that it evaluates by kernel
reduction (the fuel is always sufficient, see `encVarAuxF_congr`). -/
def encVarAuxF : Nat → Nat → List Nat
| 0, v => [v % 8 + 8]
| fuel + 1, v => if v < 8 then [v + 8] else encVarAuxF fuel (v / 8) ++ [v % 8 + 8]

def encVarAux (v : Nat) : List Nat := encVarAuxF v v

theorem encVarAuxF_congr : ∀ (fuel1 : Nat) (fuel2 v : Nat), v ≤ fuel1 → v ≤ fuel2 →
    encVarAuxF fuel1 v = encVarAuxF fuel2 v
| 0, fuel2, v, h1, h2 => by
  have hv : v = 0 := by omega
  subst hv
  cases fuel2 with
  | zero => rfl
  | succ k => simp [encVarAuxF]
| fuel1 + 1, fuel2, v, h1, h2 => by
  by_cases hv : v < 8
  · cases fuel2 with
    | zero =>
      have hv0 : v = 0 := by omega
      subst hv0
      simp [encVarAuxF]
    | succ k =>
      simp [encVarAuxF, hv]
  · cases fuel2 with
    | zero => omega
    | succ k =>
      have hd1 : v / 8 ≤ fuel1 := by
        have := Nat.div_lt_self (show 0 < v by omega) (show 1 < 8 by omega)
        omega
      have hd2 : v / 8 ≤ k := by
        have := Nat.div_lt_self (show 0 < v by omega) (show 1 < 8 by omega)
        omega
      simp only [encVarAuxF, if_neg hv]
      rw [encVarAuxF_congr fuel1 k (v / 8) hd1 hd2]

/-- Modelled from the spec: the full varuint nibble encoding — leading
continuation groups followed by one final group with a clear top bit. -/
def encVaruint (v : Nat) : List Nat :=
  if v < 8 then [v] else encVarAux (v / 8) ++ [v % 8]

/-- Modelled from the spec: varuint decoding — accumulate three bits per
nibble while the continuation flag is set. -/
def decVarCore : List Nat → Nat → Option (Nat × List Nat)
| [], _ => none
| n :: rest, acc =>
  if n < 8 then some (acc * 8 + n, rest) else decVarCore rest (acc * 8 + (n - 8))

/-- `api::raw::encode_version`. -/
def encode_version (v : Nat) : List Nat := encVaruint v

/-- `api::raw::decode_version`. -/
def decode_version (nibs : List Nat) : Except ParseError (Nat × List Nat) :=
  match decVarCore nibs 0 with
  | none => Except.error (ParseError.NotEnoughNibbles CFld.Version)
  | some (v, rest) => Except.ok (v, rest)

/-- A byte list written through the nibble writer: high nibble of each byte
first, then its low nibble. -/
def encodeBytesN (bs : List Nat) : List Nat :=
  bs.flatMap (fun b => [b / 16, b % 16])

/-- Read `n` bytes (2·n nibbles) from a nibble stream, failing with a
`NotEnoughNibbles` tag when the stream is too short. -/
def readBytesN (f : CFld) : Nat → List Nat → Except ParseError (List Nat × List Nat)
| 0, nibs => Except.ok ([], nibs)
| n + 1, hi :: lo :: rest =>
  match readBytesN f n rest with
  | Except.ok (bs, r) => Except.ok ((hi * 16 + lo) :: bs, r)
  | Except.error e => Except.error e
| _ + 1, _ => Except.error (ParseError.NotEnoughNibbles f)

/-- Modelled from the spec: `helpers::encode_string` (not under the shown
sources): a one-byte length followed by that many UTF-8 bytes
(spec section 4.2). -/
def encode_string (s : List Nat) : List Nat :=
  encodeBytesN [s.length] ++ encodeBytesN s

/-- Modelled from the spec: `helpers::decode_string`: read the one-byte
length, then the body, failing distinctly for a missing length, a missing
body and an invalid-UTF-8 body. -/
def decode_string (fLen fBody : CFld) (nibs : List Nat) :
    Except ParseError (List Nat × List Nat) :=
  match readBytesN fLen 1 nibs with
  | Except.error _ => Except.error (ParseError.NotEnoughNibbles fLen)
  | Except.ok (lenBytes, rest) =>
    match readBytesN fBody (lenBytes.headD 0) rest with
    | Except.error _ => Except.error (ParseError.NotEnoughNibbles fBody)
    | Except.ok (bs, rest2) =>
      if validUtf8 bs then Except.ok (bs, rest2)
      else Except.error (ParseError.NotValidUTF8 fBody)

/-- Modelled from the spec: `helpers::encode_address`: the 20 raw address
bytes packed two nibbles per byte (spec section 4.2). -/
def encode_address (a : List Nat) : List Nat := encodeBytesN a

/-- Modelled from the spec: `helpers::decode_address`: 20 raw bytes, with a
"not enough input" error tagged by the caller's field. -/
def decode_address (f : CFld) (nibs : List Nat) :
    Except ParseError (List Nat × List Nat) :=
  readBytesN f 20 nibs

/-- Modelled from the spec: `api::raw::encode_abi_data`: a length-prefixed
opaque byte blob, carried without interpretation (spec section 4.2). -/
def encode_abi_data (d : List Nat) : List Nat :=
  encVaruint d.length ++ encodeBytesN d

/-- Modelled from the spec: `api::raw::decode_abi_data`. -/
def decode_abi_data (nibs : List Nat) : Except ParseError (List Nat × List Nat) :=
  match decVarCore nibs 0 with
  | none => Except.error (ParseError.NotEnoughNibbles CFld.AbiDataLength)
  | some (len, rest) => readBytesN CFld.AbiData len rest

/-- Modelled from the spec: the data-layout descriptor of a deploy-template
transaction — a count followed by that many varuint slot sizes. -/
def encode_layout (l : List Nat) : List Nat :=
  encVaruint l.length ++ l.flatMap encVaruint

/-- Read `n` varuint layout entries. -/
def decodeLayoutEntries : Nat → List Nat → Option (List Nat × List Nat)
| 0, nibs => some ([], nibs)
| n + 1, nibs =>
  match decVarCore nibs 0 with
  | none => none
  | some (v, rest) =>
    match decodeLayoutEntries n rest with
    | none => none
    | some (vs, r) => some (v :: vs, r)

/-- Modelled from the spec: decoding of the data-layout descriptor. -/
def decode_layout (nibs : List Nat) : Except ParseError (List Nat × List Nat) :=
  match decVarCore nibs 0 with
  | none => Except.error (ParseError.NotEnoughNibbles CFld.DataLayoutLength)
  | some (count, rest) =>
    match decodeLayoutEntries count rest with
    | none => Except.error (ParseError.NotEnoughNibbles CFld.DataLayout)
    | some (vs, r) => Except.ok (vs, r)

/-- `api::raw::encode_deploy_template` — version, name, code (length +
bytes), data layout, in the spec's deploy-template field order. -/
def encode_deploy_template (t : AppTemplate) : List Nat :=
  encode_version t.version ++ encode_string t.name
    ++ encVaruint t.code.length ++ encodeBytesN t.code
    ++ encode_layout t.data

/-- `api::raw::decode_deploy_template`. -/
def decode_deploy_template (nibs : List Nat) :
    Except ParseError (AppTemplate × List Nat) :=
  match decode_version nibs with
  | Except.error e => Except.error e
  | Except.ok (version, r1) =>
    match decode_string CFld.NameLength CFld.Name r1 with
    | Except.error e => Except.error e
    | Except.ok (name, r2) =>
      match decVarCore r2 0 with
      | none => Except.error (ParseError.NotEnoughNibbles CFld.CodeLength)
      | some (codeLen, r3) =>
        match readBytesN CFld.Code codeLen r3 with
        | Except.error e => Except.error e
        | Except.ok (code, r4) =>
          match decode_layout r4 with
          | Except.error e => Except.error e
          | Except.ok (data, r5) =>
            Except.ok ({ version := version, name := name,
                         code := code, data := data }, r5)

/-- `app/wire.rs encode_spawn_app`: version, template address, app name,
constructor name, constructor calldata — the source's field order. -/
def encode_spawn_app (sp : SpawnApp) : List Nat :=
  encode_version sp.app.version ++ encode_address sp.app.template
    ++ encode_string sp.app.name ++ encode_string sp.ctor_name
    ++ encode_abi_data sp.calldata

/-- `app/wire.rs decode_spawn_app`: the decoders in the same order,
rebuilding the `SpawnApp`. -/
def decode_spawn_app (nibs : List Nat) : Except ParseError (SpawnApp × List Nat) :=
  match decode_version nibs with
  | Except.error e => Except.error e
  | Except.ok (version, r1) =>
    match decode_address CFld.TemplateAddr r1 with
    | Except.error e => Except.error e
    | Except.ok (template, r2) =>
      match decode_string CFld.NameLength CFld.Name r2 with
      | Except.error e => Except.error e
      | Except.ok (name, r3) =>
        match decode_string CFld.NameLength CFld.Name r3 with
        | Except.error e => Except.error e
        | Except.ok (ctor_name, r4) =>
          match decode_abi_data r4 with
          | Except.error e => Except.error e
          | Except.ok (calldata, r5) =>
            Except.ok ({ app := { version := version, name := name,
                                  template := template },
                         ctor_name := ctor_name, calldata := calldata }, r5)

/-- Pack an even-length nibble list into bytes, high nibble first. -/
def packNibbles : List Nat → List Nat
| hi :: lo :: rest => (hi * 16 + lo) :: packNibbles rest
| _ => []

/-- `NibbleWriter::into_bytes`: pad with one zero nibble when the nibble
count is odd, then pack pairs into bytes. -/
def into_bytes (nibs : List Nat) : List Nat :=
  packNibbles (if nibs.length % 2 = 0 then nibs else nibs ++ [0])

/-- Unpack a byte buffer into its nibble stream, high nibble of each byte
first — the sequence a `NibbleIter` yields over the buffer. -/
def toNibbles (bytes : List Nat) : List Nat :=
  bytes.flatMap (fun b => [b % 256 / 16, b % 16])

/-- `DefaultAppTemplateSerializer::serialize`: the deploy-template encoding
followed by the author address, flushed to bytes by one writer. -/
def serialize (t : AppTemplate) (a : List Nat) : List Nat :=
  into_bytes (encode_deploy_template t ++ encode_address a)

/-- `DefaultAppTemplateDeserializer::deserialize`: decode the template, then
the author address, returning `none` on any parse failure. -/
def deserialize (bytes : List Nat) : Option (AppTemplate × List Nat) :=
  match decode_deploy_template (toNibbles bytes) with
  | Except.error _ => none
  | Except.ok (t, rest) =>
    match decode_address CFld.Author rest with
    | Except.error _ => none
    | Except.ok (a, _) => some (t, a)

/-- Well-formedness of the Rust values being encoded: byte lists hold byte
values, addresses are 20 bytes, string lengths fit the one-byte length
field, names are valid UTF-8, and versions fit `u32`. -/
def WFBytes (l : List Nat) : Prop := ∀ b ∈ l, b < 256

def WFString (s : List Nat) : Prop :=
  WFBytes s ∧ s.length ≤ 255 ∧ validUtf8 s = true

def WFAddr (a : List Nat) : Prop := WFBytes a ∧ a.length = 20

def WFSpawnApp (sp : SpawnApp) : Prop :=
  sp.app.version < 4294967296 ∧ WFString sp.app.name ∧ WFAddr sp.app.template
    ∧ WFString sp.ctor_name ∧ WFBytes sp.calldata

def WFTemplate (t : AppTemplate) : Prop :=
  t.version < 4294967296 ∧ WFString t.name ∧ WFBytes t.code
    ∧ ∀ v ∈ t.data, v < 4294967296

instance (l : List Nat) : Decidable (WFBytes l) := by
  unfold WFBytes
  infer_instance

instance (s : List Nat) : Decidable (WFString s) := by
  unfold WFString
  infer_instance

instance (a : List Nat) : Decidable (WFAddr a) := by
  unfold WFAddr
  infer_instance

instance (sp : SpawnApp) : Decidable (WFSpawnApp sp) := by
  unfold WFSpawnApp
  infer_instance

instance (t : AppTemplate) : Decidable (WFTemplate t) := by
  unfold WFTemplate
  infer_instance

theorem encVarAux_of_lt (v : Nat) (h : v < 8) : encVarAux v = [v + 8] := by
  unfold encVarAux
  cases v with
  | zero => simp [encVarAuxF]
  | succ m => simp [encVarAuxF, h]

theorem encVarAux_of_ge (v : Nat) (h : ¬ v < 8) :
    encVarAux v = encVarAux (v / 8) ++ [v % 8 + 8] := by
  cases v with
  | zero => omega
  | succ m =>
    have hd : (m + 1) / 8 ≤ m := by
      have := Nat.div_lt_self (show 0 < m + 1 by omega) (show 1 < 8 by omega)
      omega
    unfold encVarAux
    simp only [encVarAuxF, if_neg h]
    rw [encVarAuxF_congr m ((m + 1) / 8) ((m + 1) / 8) hd (le_refl _)]

theorem encVarAux_lt (v : Nat) : ∀ n ∈ encVarAux v, n < 16 := by
  induction v using Nat.strong_induction_on with
  | _ v ih =>
    by_cases h : v < 8
    · rw [encVarAux_of_lt v h]
      intro n hn
      simp at hn
      omega
    · rw [encVarAux_of_ge v h]
      intro n hn
      rcases List.mem_append.mp hn with hn | hn
      · exact ih (v / 8) (Nat.div_lt_self (by omega) (by omega)) n hn
      · simp at hn
        omega

theorem encVaruint_lt (v : Nat) : ∀ n ∈ encVaruint v, n < 16 := by
  unfold encVaruint
  by_cases h : v < 8
  · intro n hn
    simp [h] at hn
    omega
  · intro n hn
    simp [h] at hn
    rcases hn with hn | hn
    · exact encVarAux_lt (v / 8) n hn
    · omega

theorem decVar_encAux (v : Nat) : ∀ (acc : Nat) (rest : List Nat),
    decVarCore (encVarAux v ++ rest) acc
      = decVarCore rest (acc * 8 ^ (encVarAux v).length + v) := by
  induction v using Nat.strong_induction_on with
  | _ v ih =>
    intro acc rest
    by_cases h : v < 8
    · rw [encVarAux_of_lt v h]
      have h8 : ¬ (v + 8 < 8) := by omega
      simp only [List.singleton_append, decVarCore, if_neg h8, List.length_singleton, pow_one,
        List.nil_append, Nat.add_sub_cancel]
      rfl
    · rw [encVarAux_of_ge v h]
      rw [List.append_assoc, List.singleton_append]
      rw [ih (v / 8) (Nat.div_lt_self (by omega) (by omega)) acc ((v % 8 + 8) :: rest)]
      have h8 : ¬ (v % 8 + 8 < 8) := by omega
      simp only [decVarCore, if_neg h8, List.length_append, List.length_singleton]
      congr 1
      rw [Nat.add_sub_cancel, pow_succ]
      have hdm : 8 * (v / 8) + v % 8 = v := Nat.div_add_mod v 8
      calc (acc * 8 ^ (encVarAux (v / 8)).length + v / 8) * 8 + v % 8
          = acc * (8 ^ (encVarAux (v / 8)).length * 8) + (8 * (v / 8) + v % 8) := by ring
        _ = acc * (8 ^ (encVarAux (v / 8)).length * 8) + v := by rw [hdm]

theorem decVar_enc (v : Nat) (rest : List Nat) :
    decVarCore (encVaruint v ++ rest) 0 = some (v, rest) := by
  by_cases h : v < 8
  · simp [encVaruint, h, decVarCore]
  · rw [show encVaruint v = encVarAux (v / 8) ++ [v % 8] from by simp [encVaruint, h]]
    rw [List.append_assoc, List.singleton_append, decVar_encAux]
    have h8 : v % 8 < 8 := Nat.mod_lt _ (by omega)
    simp only [decVarCore, if_pos h8, Nat.zero_mul, Nat.zero_add]
    simp only [Option.some.injEq, Prod.mk.injEq]
    exact ⟨by omega, trivial⟩

theorem encodeBytesN_cons (b : Nat) (bs : List Nat) :
    encodeBytesN (b :: bs) = b / 16 :: b % 16 :: encodeBytesN bs := by
  simp [encodeBytesN]

theorem readBytesN_enc (f : CFld) : ∀ (bs rest : List Nat),
    readBytesN f bs.length (encodeBytesN bs ++ rest) = Except.ok (bs, rest)
| [], rest => by simp [encodeBytesN, readBytesN]
| b :: bs, rest => by
  rw [encodeBytesN_cons, List.cons_append, List.cons_append, List.length_cons]
  simp only [readBytesN, readBytesN_enc f bs rest]
  have hdm : b / 16 * 16 + b % 16 = b := by omega
  rw [hdm]

theorem readBytesN_enc_one (f : CFld) (b : Nat) (rest : List Nat) :
    readBytesN f 1 (encodeBytesN [b] ++ rest) = Except.ok ([b], rest) :=
  readBytesN_enc f [b] rest

theorem decode_string_enc (fLen fBody : CFld) (s rest : List Nat)
    (hv : validUtf8 s = true) :
    decode_string fLen fBody (encode_string s ++ rest) = Except.ok (s, rest) := by
  unfold decode_string encode_string
  rw [List.append_assoc, readBytesN_enc_one]
  simp only [List.headD_cons, readBytesN_enc fBody s rest, hv, if_pos]

theorem decode_address_enc (f : CFld) (a rest : List Nat) (ha : a.length = 20) :
    decode_address f (encode_address a ++ rest) = Except.ok (a, rest) := by
  unfold decode_address encode_address
  rw [← ha]
  exact readBytesN_enc f a rest

theorem decode_abi_data_enc (d rest : List Nat) :
    decode_abi_data (encode_abi_data d ++ rest) = Except.ok (d, rest) := by
  unfold decode_abi_data encode_abi_data
  rw [List.append_assoc]
  simp only [decVar_enc, readBytesN_enc]

theorem decodeLayoutEntries_enc : ∀ (l rest : List Nat),
    decodeLayoutEntries l.length (l.flatMap encVaruint ++ rest) = some (l, rest)
| [], rest => by simp [decodeLayoutEntries]
| v :: l, rest => by
  simp only [List.flatMap_cons, List.append_assoc, List.length_cons, decodeLayoutEntries,
    decVar_enc, decodeLayoutEntries_enc l rest]

theorem decode_layout_enc (l rest : List Nat) :
    decode_layout (encode_layout l ++ rest) = Except.ok (l, rest) := by
  unfold decode_layout encode_layout
  rw [List.append_assoc]
  simp only [decVar_enc, decodeLayoutEntries_enc]

theorem decode_version_enc (v : Nat) (rest : List Nat) :
    decode_version (encode_version v ++ rest) = Except.ok (v, rest) := by
  unfold decode_version encode_version
  simp only [decVar_enc]

theorem decode_deploy_template_enc (t : AppTemplate) (rest : List Nat)
    (hname : validUtf8 t.name = true) :
    decode_deploy_template (encode_deploy_template t ++ rest) = Except.ok (t, rest) := by
  obtain ⟨version, name, code, data⟩ := t
  unfold encode_deploy_template decode_deploy_template
  simp only [List.append_assoc]
  simp only [decode_version_enc, decode_string_enc _ _ _ _ hname, decVar_enc,
    readBytesN_enc, decode_layout_enc]

theorem decode_spawn_app_enc (sp : SpawnApp) (rest : List Nat)
    (hname : validUtf8 sp.app.name = true) (hctor : validUtf8 sp.ctor_name = true)
    (htpl : sp.app.template.length = 20) :
    decode_spawn_app (encode_spawn_app sp ++ rest) = Except.ok (sp, rest) := by
  obtain ⟨⟨version, name, template⟩, ctor_name, calldata⟩ := sp
  unfold encode_spawn_app decode_spawn_app
  simp only [List.append_assoc]
  simp only at hname hctor htpl
  simp only [decode_version_enc, decode_address_enc _ _ _ htpl,
    decode_string_enc _ _ _ _ hname, decode_string_enc _ _ _ _ hctor,
    decode_abi_data_enc]

theorem toNibbles_pack : ∀ l : List Nat, (∀ n ∈ l, n < 16) → l.length % 2 = 0 →
    toNibbles (packNibbles l) = l
| [], _, _ => by simp [packNibbles, toNibbles]
| [n], _, hlen => by simp at hlen
| hi :: lo :: rest, h, hlen => by
  have hhi : hi < 16 := h hi (by simp)
  have hlo : lo < 16 := h lo (by simp)
  have hrec : toNibbles (packNibbles rest) = rest := by
    apply toNibbles_pack rest
    · intro n hn
      exact h n (by simp [hn])
    · simp at hlen
      omega
  simp only [packNibbles, toNibbles, List.flatMap_cons] at hrec ⊢
  rw [hrec]
  have h1 : (hi * 16 + lo) % 256 / 16 = hi := by omega
  have h2 : (hi * 16 + lo) % 16 = lo := by omega
  rw [h1, h2]
  rfl

theorem toNibbles_into_bytes (nibs : List Nat) (h : ∀ n ∈ nibs, n < 16) :
    ∃ pad, (pad = ([] : List Nat) ∨ pad = [0])
      ∧ toNibbles (into_bytes nibs) = nibs ++ pad := by
  unfold into_bytes
  by_cases hp : nibs.length % 2 = 0
  · refine ⟨[], Or.inl rfl, ?_⟩
    rw [if_pos hp, toNibbles_pack nibs h hp, List.append_nil]
  · refine ⟨[0], Or.inr rfl, ?_⟩
    rw [if_neg hp]
    apply toNibbles_pack
    · intro n hn
      rcases List.mem_append.mp hn with hn | hn
      · exact h n hn
      · simp at hn
        omega
    · simp
      omega

theorem encodeBytesN_lt (bs : List Nat) (h : WFBytes bs) :
    ∀ n ∈ encodeBytesN bs, n < 16 := by
  intro n hn
  unfold encodeBytesN at hn
  rcases List.mem_flatMap.mp hn with ⟨b, hb, hmem⟩
  have := h b hb
  simp at hmem
  rcases hmem with hmem | hmem <;> omega

theorem encode_string_lt (s : List Nat) (h : WFString s) :
    ∀ n ∈ encode_string s, n < 16 := by
  intro n hn
  unfold encode_string at hn
  rcases List.mem_append.mp hn with hn | hn
  · refine encodeBytesN_lt [s.length] ?_ n hn
    intro b hb
    simp at hb
    have := h.2.1
    omega
  · exact encodeBytesN_lt s h.1 n hn

theorem encode_spawn_app_lt (sp : SpawnApp) (h : WFSpawnApp sp) :
    ∀ n ∈ encode_spawn_app sp, n < 16 := by
  intro n hn
  unfold encode_spawn_app at hn
  simp only [List.append_assoc, List.mem_append] at hn
  rcases hn with hn | hn | hn | hn | hn
  · exact encVaruint_lt _ n hn
  · exact encodeBytesN_lt _ h.2.2.1.1 n hn
  · exact encode_string_lt _ h.2.1 n hn
  · exact encode_string_lt _ h.2.2.2.1 n hn
  · unfold encode_abi_data at hn
    rcases List.mem_append.mp hn with hn | hn
    · exact encVaruint_lt _ n hn
    · exact encodeBytesN_lt _ h.2.2.2.2 n hn

theorem encode_deploy_template_lt (t : AppTemplate) (h : WFTemplate t) :
    ∀ n ∈ encode_deploy_template t, n < 16 := by
  intro n hn
  unfold encode_deploy_template at hn
  simp only [List.append_assoc, List.mem_append] at hn
  rcases hn with hn | hn | hn | hn | hn
  · exact encVaruint_lt _ n hn
  · exact encode_string_lt _ h.2.1 n hn
  · exact encVaruint_lt _ n hn
  · exact encodeBytesN_lt _ h.2.2.1 n hn
  · unfold encode_layout at hn
    rcases List.mem_append.mp hn with hn | hn
    · exact encVaruint_lt _ n hn
    · rcases List.mem_flatMap.mp hn with ⟨v, _, hmem⟩
      exact encVaruint_lt v n hmem

/-- C1: the transaction codec round-trips.  Encoding a `SpawnApp` and
decoding the produced bytes yields the original value with at most one zero
alignment-pad nibble left unconsumed, and the default template serializer /
deserializer pair returns the original `(AppTemplate, author)` pair, again
with the decoders consuming everything but at most one pad nibble. -/
theorem spawn_and_template_roundtrip (sp : SpawnApp) (t : AppTemplate) (a : List Nat)
    (hsp : WFSpawnApp sp) (ht : WFTemplate t) (ha : WFAddr a) :
    (∃ pad, (pad = ([] : List Nat) ∨ pad = [0]) ∧
       decode_spawn_app (toNibbles (into_bytes (encode_spawn_app sp)))
         = Except.ok (sp, pad))
    ∧ (∃ pad, (pad = ([] : List Nat) ∨ pad = [0]) ∧
       decode_deploy_template (toNibbles (serialize t a))
         = Except.ok (t, encode_address a ++ pad)
       ∧ decode_address CFld.Author (encode_address a ++ pad) = Except.ok (a, pad))
    ∧ deserialize (serialize t a) = some (t, a) := by
  obtain ⟨pad1, hpad1, heq1⟩ :=
    toNibbles_into_bytes (encode_spawn_app sp) (encode_spawn_app_lt sp hsp)
  have hspawn : decode_spawn_app (toNibbles (into_bytes (encode_spawn_app sp)))
      = Except.ok (sp, pad1) := by
    rw [heq1]
    exact decode_spawn_app_enc sp pad1 hsp.2.1.2.2 hsp.2.2.2.1.2.2 hsp.2.2.1.2
  have hbodylt : ∀ n ∈ encode_deploy_template t ++ encode_address a, n < 16 := by
    intro n hn
    rcases List.mem_append.mp hn with hn | hn
    · exact encode_deploy_template_lt t ht n hn
    · exact encodeBytesN_lt a ha.1 n hn
  obtain ⟨pad2, hpad2, heq2⟩ :=
    toNibbles_into_bytes (encode_deploy_template t ++ encode_address a) hbodylt
  have htpl : decode_deploy_template (toNibbles (serialize t a))
      = Except.ok (t, encode_address a ++ pad2) := by
    unfold serialize
    rw [heq2, List.append_assoc]
    exact decode_deploy_template_enc t (encode_address a ++ pad2) ht.2.1.2.2
  have haddr : decode_address CFld.Author (encode_address a ++ pad2)
      = Except.ok (a, pad2) :=
    decode_address_enc CFld.Author a pad2 ha.2
  refine ⟨⟨pad1, hpad1, hspawn⟩, ⟨pad2, hpad2, htpl, haddr⟩, ?_⟩
  unfold deserialize
  rw [htpl]
  simp [haddr]

/-- Witness for C1: concrete round trips — the spawn-app value of the
source's own unit test (name "my-app", ctor "initialize", calldata
`[0x10, 0x20, 0x30]`) and a concrete template/author pair. -/
theorem spawn_and_template_roundtrip_witness :
    WFSpawnApp { app := { version := 0, name := [109, 121, 45, 97, 112, 112],
                          template := List.replicate 20 16 },
                 ctor_name := [105, 110, 105, 116],
                 calldata := [16, 32, 48] }
    ∧ WFTemplate { version := 0, name := [77, 121, 32, 84],
                   code := [12, 0, 13, 14], data := [10, 20, 30] }
    ∧ WFAddr (List.replicate 20 7)
    ∧ ((∃ pad, (pad = ([] : List Nat) ∨ pad = [0]) ∧
         decode_spawn_app (toNibbles (into_bytes (encode_spawn_app
           { app := { version := 0, name := [109, 121, 45, 97, 112, 112],
                      template := List.replicate 20 16 },
             ctor_name := [105, 110, 105, 116], calldata := [16, 32, 48] })))
           = Except.ok ({ app := { version := 0, name := [109, 121, 45, 97, 112, 112],
                                   template := List.replicate 20 16 },
                          ctor_name := [105, 110, 105, 116],
                          calldata := [16, 32, 48] }, pad))
       ∧ (∃ pad, (pad = ([] : List Nat) ∨ pad = [0]) ∧
         decode_deploy_template (toNibbles (serialize
             { version := 0, name := [77, 121, 32, 84],
               code := [12, 0, 13, 14], data := [10, 20, 30] } (List.replicate 20 7)))
           = Except.ok ({ version := 0, name := [77, 121, 32, 84],
                          code := [12, 0, 13, 14], data := [10, 20, 30] },
                        encode_address (List.replicate 20 7) ++ pad)
         ∧ decode_address CFld.Author (encode_address (List.replicate 20 7) ++ pad)
             = Except.ok (List.replicate 20 7, pad))
       ∧ deserialize (serialize
           { version := 0, name := [77, 121, 32, 84],
             code := [12, 0, 13, 14], data := [10, 20, 30] } (List.replicate 20 7))
           = some ({ version := 0, name := [77, 121, 32, 84],
                     code := [12, 0, 13, 14], data := [10, 20, 30] },
                   List.replicate 20 7)) := by
  refine ⟨by decide, by decide, by decide, ?_⟩
  exact spawn_and_template_roundtrip _ _ _ (by decide) (by decide) (by decide)

end Codec

namespace Rt

/-- `WasmType` (svm-types): only 32- and 64-bit integers are supported. -/
inductive WasmType : Type
| I32
| I64
deriving DecidableEq, Repr

/-- `WasmValue` (svm-types). -/
inductive WasmValue : Type
| I32 (v : Nat)
| I64 (v : Nat)
deriving DecidableEq, Repr

/-- `WasmValue::ty`. -/
def WasmValue.ty : WasmValue → WasmType
| WasmValue.I32 _ => WasmType.I32
| WasmValue.I64 _ => WasmType.I64

/-- A wasmer `Val` as seen by the inner callback: an i32, an i64, or some
other value kind the bridge rejects. -/
inductive Val : Type
| I32 (v : Nat)
| I64 (v : Nat)
| OtherVal
deriving DecidableEq, Repr

/-- The message of the `RuntimeError` the inner callback produces: a trap
message (the host's error bytes, or the fixed fallback text of
`From<&svm_trap_t> for String` when those bytes are not valid UTF-8), or
one of the two fixed bridge errors. -/
inductive TrapMsg : Type
| fromBytes (bs : List Nat)
| interpretationError
deriving DecidableEq, Repr

inductive RtErrMsg : Type
| trap (m : TrapMsg)
| invalidArgType
| invalidWasmValues
deriving DecidableEq, Repr

/-- `From<&svm_trap_t> for String` (svm-ffi/src/trap.rs): interpret the
trap's error bytes as a string, falling back to the fixed message
"svm_trap_t (exact error message had an interpretation error." when the
bytes are not interpretable as UTF-8. -/
def trapToString (trap : List Nat) : TrapMsg :=
  if validUtf8 trap then TrapMsg.fromBytes trap else TrapMsg.interpretationError

/-- Result of one sandbox call through the import bridge
(`Result<Vec<Val>, RuntimeError>`). -/
inductive CallResult : Type
| ok (vals : List Val)
| err (msg : RtErrMsg)
deriving DecidableEq, Repr

/-- `wasmer_vals_to_wasm_vals` (import.rs): reject any argument that is not
an i32 or i64. -/
def wasmer_vals_to_wasm_vals : List Val → Except Unit (List WasmValue)
| [] => Except.ok []
| Val.I32 v :: rest =>
  match wasmer_vals_to_wasm_vals rest with
  | Except.ok vs => Except.ok (WasmValue.I32 v :: vs)
  | Except.error e => Except.error e
| Val.I64 v :: rest =>
  match wasmer_vals_to_wasm_vals rest with
  | Except.ok vs => Except.ok (WasmValue.I64 v :: vs)
  | Except.error e => Except.error e
| Val.OtherVal :: _ => Except.error ()

/-- `wasm_vals_to_wasmer_vals` (import.rs). -/
def wasm_vals_to_wasmer_vals (vals : List WasmValue) : List Val :=
  vals.map (fun v => match v with
    | WasmValue.I32 n => Val.I32 n
    | WasmValue.I64 n => Val.I64 n)

/-- Modelled from the spec: `Vec::<WasmValue>::try_from(&svm_byte_array)`
(svm-ffi value marshalling, not under the shown sources): decode the host's
output buffer into typed values — a tag byte 0 for a 4-byte big-endian i32,
1 for an 8-byte big-endian i64 — failing on any other layout. -/
def decodeWasmValues : List Nat → Option (List WasmValue)
| [] => some []
| 0 :: a :: b :: c :: d :: rest =>
  match decodeWasmValues rest with
  | some vs => some (WasmValue.I32 (((a * 256 + b) * 256 + c) * 256 + d) :: vs)
  | none => none
| 1 :: a :: b :: c :: d :: e :: f :: g :: h :: rest =>
  match decodeWasmValues rest with
  | some vs => some (WasmValue.I64 ((((((((a * 256 + b) * 256 + c) * 256 + d) * 256
      + e) * 256 + f) * 256 + g) * 256 + h)) :: vs)
  | none => none
| _ => none

/-- `to_wasm_values` (import.rs): decode the returned buffer, then check the
value count and each value's type against the declared return types. -/
def to_wasm_values (bytes : List Nat) (types : List WasmType) : Option (List WasmValue) :=
  match decodeWasmValues bytes with
  | none => none
  | some results =>
    if results.length ≠ types.length then none
    else if (results.zip types).all (fun p => p.1.ty == p.2) then some results
    else none

/-- What the registered host callback produced: the trap out-pointer
(`none` models a null pointer) and the results byte buffer it wrote. -/
structure HostCall where
  trapOut : Option (List Nat)
  results : List Nat

/-- The `inner_callback` closure of `ExternImport::wasmer_export`
(import.rs): marshal the wasmer arguments, invoke the host function, abort
with a `RuntimeError` built from the trap when the trap pointer is
non-null, otherwise marshal the results buffer back into the declared
return types. -/
def inner_callback (returns_types : List WasmType)
    (hostFn : List WasmValue → HostCall) (args : List Val) : CallResult :=
  match wasmer_vals_to_wasm_vals args with
  | Except.error _ => CallResult.err RtErrMsg.invalidArgType
  | Except.ok wargs =>
    let out := hostFn wargs
    match out.trapOut with
    | some trapBytes => CallResult.err (RtErrMsg.trap (trapToString trapBytes))
    | none =>
      match to_wasm_values out.results returns_types with
      | some vals => CallResult.ok (wasm_vals_to_wasmer_vals vals)
      | none => CallResult.err RtErrMsg.invalidWasmValues

/-- C5: whenever the host callback returns a non-null trap pointer, the
inner callback aborts the call with a `RuntimeError` whose message is the
trap's error bytes interpreted as a string — the fixed fallback message
when they are not valid UTF-8 — and produces no result values. -/
theorem host_trap_aborts_call (returns_types : List WasmType)
    (hostFn : List WasmValue → HostCall) (args : List Val)
    (wargs : List WasmValue) (trapBytes : List Nat)
    (hargs : wasmer_vals_to_wasm_vals args = Except.ok wargs)
    (htrap : (hostFn wargs).trapOut = some trapBytes) :
    inner_callback returns_types hostFn args
      = CallResult.err (RtErrMsg.trap (trapToString trapBytes))
    ∧ (validUtf8 trapBytes = true → trapToString trapBytes = TrapMsg.fromBytes trapBytes)
    ∧ (validUtf8 trapBytes = false → trapToString trapBytes = TrapMsg.interpretationError)
    ∧ ∀ vals, inner_callback returns_types hostFn args ≠ CallResult.ok vals := by
  have hmain : inner_callback returns_types hostFn args
      = CallResult.err (RtErrMsg.trap (trapToString trapBytes)) := by
    unfold inner_callback
    rw [hargs]
    simp [htrap]
  refine ⟨hmain, ?_, ?_, ?_⟩
  · intro hv
    simp [trapToString, hv]
  · intro hv
    simp [trapToString, hv]
  · intro vals
    rw [hmain]
    intro habs
    exact CallResult.noConfusion habs

/-- Witness for C5: a host function that always writes the trap bytes
"Bad" ([66, 97, 100]) aborts the call with exactly that message. -/
theorem host_trap_aborts_call_witness :
    wasmer_vals_to_wasm_vals [Val.I32 5] = Except.ok [WasmValue.I32 5]
    ∧ inner_callback [] (fun _ => { trapOut := some [66, 97, 100], results := [] })
        [Val.I32 5]
      = CallResult.err (RtErrMsg.trap (TrapMsg.fromBytes [66, 97, 100])) := by
  refine ⟨by decide, ?_⟩
  have h := host_trap_aborts_call []
    (fun _ => { trapOut := some [66, 97, 100], results := [] })
    [Val.I32 5] [WasmValue.I32 5] [66, 97, 100] (by decide) rfl
  rw [h.1]
  rw [h.2.1 (by decide)]

end Rt

namespace Api

/-- `svm_result_t` of the C-API. -/
inductive svm_result_t : Type
| SVM_SUCCESS
| SVM_FAILURE
deriving DecidableEq, Repr

/-- `svm_gas::Gas`: an exact cost or a bounded range. -/
inductive Gas : Type
| Fixed (gas : Nat)
| Range (min max : Nat)
deriving DecidableEq, Repr

/-- The `max_gas!` macro (api.rs): the cost of a `Fixed` estimate or the
`max` field of a `Range`. -/
def max_gas : Gas → Nat
| Gas.Fixed gas => gas
| Gas.Range _ gas => gas

/-- Observable effect of one `svm_estimate_*` call: its return code, the
value written to the `estimation` out-parameter (`none` = left unwritten),
and the error written to the `error` out-parameter. -/
structure EstimateOut (E : Type) where
  ret : svm_result_t
  estimation : Option Nat
  errorWritten : Option E
deriving DecidableEq, Repr

/-- `svm_estimate_deploy_template` (api.rs): the runtime's estimation
result is a parameter (the estimator itself is not under the shown
sources); on `Ok` write `max_gas!` of it and return success, on `Err`
write the validate error and return failure without touching the
estimation out-parameter. -/
def svm_estimate_deploy_template {E : Type} (res : Except E Gas) : EstimateOut E :=
  match res with
  | Except.ok est =>
    { ret := svm_result_t.SVM_SUCCESS, estimation := some (max_gas est), errorWritten := none }
  | Except.error e =>
    { ret := svm_result_t.SVM_FAILURE, estimation := none, errorWritten := some e }

/-- `svm_estimate_spawn_app` (api.rs): same shape. -/
def svm_estimate_spawn_app {E : Type} (res : Except E Gas) : EstimateOut E :=
  match res with
  | Except.ok est =>
    { ret := svm_result_t.SVM_SUCCESS, estimation := some (max_gas est), errorWritten := none }
  | Except.error e =>
    { ret := svm_result_t.SVM_FAILURE, estimation := none, errorWritten := some e }

/-- `svm_estimate_exec_app` (api.rs): same shape. -/
def svm_estimate_exec_app {E : Type} (res : Except E Gas) : EstimateOut E :=
  match res with
  | Except.ok est =>
    { ret := svm_result_t.SVM_SUCCESS, estimation := some (max_gas est), errorWritten := none }
  | Except.error e =>
    { ret := svm_result_t.SVM_FAILURE, estimation := none, errorWritten := some e }

/-- C6: when estimation succeeds each `svm_estimate_*` entry point writes
the cost of a `Fixed` estimate or the `max` field of a `Range` into the
estimation out-parameter and returns `SVM_SUCCESS`; when it fails the entry
point returns `SVM_FAILURE` and leaves the estimation out-parameter
unwritten. -/
theorem estimate_writes_max_gas (g : Gas) (e : List Nat) (c m : Nat) :
    svm_estimate_deploy_template (Except.ok g : Except (List Nat) Gas)
      = { ret := svm_result_t.SVM_SUCCESS, estimation := some (max_gas g),
          errorWritten := none }
    ∧ svm_estimate_spawn_app (Except.ok g : Except (List Nat) Gas)
      = { ret := svm_result_t.SVM_SUCCESS, estimation := some (max_gas g),
          errorWritten := none }
    ∧ svm_estimate_exec_app (Except.ok g : Except (List Nat) Gas)
      = { ret := svm_result_t.SVM_SUCCESS, estimation := some (max_gas g),
          errorWritten := none }
    ∧ svm_estimate_deploy_template (Except.error e)
      = { ret := svm_result_t.SVM_FAILURE, estimation := none, errorWritten := some e }
    ∧ svm_estimate_spawn_app (Except.error e)
      = { ret := svm_result_t.SVM_FAILURE, estimation := none, errorWritten := some e }
    ∧ svm_estimate_exec_app (Except.error e)
      = { ret := svm_result_t.SVM_FAILURE, estimation := none, errorWritten := some e }
    ∧ max_gas (Gas.Fixed c) = c
    ∧ max_gas (Gas.Range m c) = c :=
  ⟨rfl, rfl, rfl, rfl, rfl, rfl, rfl, rfl⟩

/-- Modelled from the spec: the three receipt shapes — a leading success
flag, then either the happy-path fields or an error payload (spec
sections 4.3, 6).  The receipt values themselves come from the runtime,
which is not under the shown sources, so they are parameters here. -/
structure TemplateReceipt where
  success : Bool
  addr : List Nat
  gas_used : Nat
  errMsg : List Nat
deriving DecidableEq, Repr

structure AppReceipt where
  success : Bool
  app_addr : List Nat
  init_state : List Nat
  gas_used : Nat
  errMsg : List Nat
deriving DecidableEq, Repr

structure ExecReceipt where
  success : Bool
  new_state : List Nat
  returns : List Nat
  gas_used : Nat
  errMsg : List Nat
deriving DecidableEq, Repr

/-- Modelled from the spec: `encode_template_receipt` — success flag first,
then the happy-path fields or the error payload. -/
def encode_template_receipt (r : TemplateReceipt) : List Nat :=
  (if r.success then [1] else [0])
    ++ (if r.success then r.addr ++ Codec.encVaruint r.gas_used else r.errMsg)

/-- Modelled from the spec: `encode_app_receipt`. -/
def encode_app_receipt (r : AppReceipt) : List Nat :=
  (if r.success then [1] else [0])
    ++ (if r.success then r.app_addr ++ r.init_state ++ Codec.encVaruint r.gas_used
        else r.errMsg)

/-- Modelled from the spec: `encode_exec_receipt`. -/
def encode_exec_receipt (r : ExecReceipt) : List Nat :=
  (if r.success then [1] else [0])
    ++ (if r.success then r.new_state ++ r.returns ++ Codec.encVaruint r.gas_used
        else r.errMsg)

/-- Observable effect of one execution entry point: return code, error
out-parameter, receipt out-parameter (`none` = left unwritten). -/
structure ExecEntryOut where
  ret : svm_result_t
  errorWritten : Option (List Nat)
  receiptWritten : Option (List Nat)
deriving DecidableEq, Repr

/-- `svm_deploy_template` (api.rs): convert the author address; on failure
write the error and return `SVM_FAILURE`; otherwise run the runtime's
deploy (its receipt is a parameter — the runtime is not under the shown
sources), encode the receipt, write it, and return `SVM_SUCCESS`
unconditionally. -/
def svm_deploy_template (author : Except (List Nat) (List Nat))
    (rust_receipt : TemplateReceipt) : ExecEntryOut :=
  match author with
  | Except.error s =>
    { ret := svm_result_t.SVM_FAILURE, errorWritten := some s, receiptWritten := none }
  | Except.ok _ =>
    { ret := svm_result_t.SVM_SUCCESS, errorWritten := none,
      receiptWritten := some (encode_template_receipt rust_receipt) }

/-- `svm_spawn_app` (api.rs): same shape over the creator address. -/
def svm_spawn_app (creator : Except (List Nat) (List Nat))
    (rust_receipt : AppReceipt) : ExecEntryOut :=
  match creator with
  | Except.error s =>
    { ret := svm_result_t.SVM_FAILURE, errorWritten := some s, receiptWritten := none }
  | Except.ok _ =>
    { ret := svm_result_t.SVM_SUCCESS, errorWritten := none,
      receiptWritten := some (encode_app_receipt rust_receipt) }

/-- `svm_exec_app` (api.rs): same shape over the state argument. -/
def svm_exec_app (state : Except (List Nat) (List Nat))
    (rust_receipt : ExecReceipt) : ExecEntryOut :=
  match state with
  | Except.error s =>
    { ret := svm_result_t.SVM_FAILURE, errorWritten := some s, receiptWritten := none }
  | Except.ok _ =>
    { ret := svm_result_t.SVM_SUCCESS, errorWritten := none,
      receiptWritten := some (encode_exec_receipt rust_receipt) }

/-- C9: whenever the address/state argument converts successfully, the
three execution entry points return `SVM_SUCCESS` and write the encoded
receipt, regardless of whether the executed operation itself failed — the
receipt for a failed execution still gets written, with its leading success
flag 0, and the error out-parameter stays untouched; only a conversion
failure yields `SVM_FAILURE`. -/
theorem exec_entry_success_regardless (a s0 : List Nat) (msg : List Nat)
    (tr : TemplateReceipt) (ar : AppReceipt) (er : ExecReceipt) :
    svm_deploy_template (Except.ok a) tr
      = { ret := svm_result_t.SVM_SUCCESS, errorWritten := none,
          receiptWritten := some (encode_template_receipt tr) }
    ∧ svm_spawn_app (Except.ok a) ar
      = { ret := svm_result_t.SVM_SUCCESS, errorWritten := none,
          receiptWritten := some (encode_app_receipt ar) }
    ∧ svm_exec_app (Except.ok s0) er
      = { ret := svm_result_t.SVM_SUCCESS, errorWritten := none,
          receiptWritten := some (encode_exec_receipt er) }
    ∧ (encode_template_receipt tr).head? = some (if tr.success then 1 else 0)
    ∧ (encode_app_receipt ar).head? = some (if ar.success then 1 else 0)
    ∧ (encode_exec_receipt er).head? = some (if er.success then 1 else 0)
    ∧ svm_deploy_template (Except.error msg) tr
      = { ret := svm_result_t.SVM_FAILURE, errorWritten := some msg,
          receiptWritten := none } := by
  refine ⟨rfl, rfl, rfl, ?_, ?_, ?_, rfl⟩
  · unfold encode_template_receipt
    cases tr.success <;> rfl
  · unfold encode_app_receipt
    cases ar.success <;> rfl
  · unfold encode_exec_receipt
    cases er.success <;> rfl

/-- `ExternImport` as stored in the imports vector (import.rs): name,
namespace, parameter and return types. -/
structure ExternImport where
  name : List Nat
  namespc : List Nat
  params : List Rt.WasmType
  returns : List Rt.WasmType
deriving DecidableEq, Repr

/-- The imports vector: `Vec::with_capacity(count)` fixes the capacity at
allocation; `funcs` is its contents. -/
structure Imports where
  capacity : Nat
  funcs : List ExternImport
deriving DecidableEq, Repr

/-- `svm_imports_alloc` (api.rs): `Vec::with_capacity(count)` — an empty
vector whose capacity is the requested count. -/
def svm_imports_alloc (count : Nat) : Imports :=
  { capacity := count, funcs := [] }

/-- Arguments of one `svm_import_func_new` call, with each fallible
FFI conversion embedded as its result. -/
structure ImportArgs where
  host_env_nonnull : Bool
  params : Except Unit (List Rt.WasmType)
  returns : Except Unit (List Rt.WasmType)
  import_name : Except Unit (List Nat)
  namespc : Except Unit (List Nat)

/-- `svm_import_func_new` (api.rs): first
`assert!(imports.len() < imports.capacity())` — a failed assertion aborts
(crash) rather than returning `SVM_FAILURE`; then the null check on
`host_env` and the four conversions, each returning `SVM_FAILURE` on error;
finally push the new import. -/
def svm_import_func_new (imp : Imports) (a : ImportArgs) :
    Crash (svm_result_t × Imports) :=
  if imp.funcs.length < imp.capacity then
    if a.host_env_nonnull = false then
      Crash.ok (svm_result_t.SVM_FAILURE, imp)
    else
      match a.params with
      | Except.error _ => Crash.ok (svm_result_t.SVM_FAILURE, imp)
      | Except.ok ps =>
        match a.returns with
        | Except.error _ => Crash.ok (svm_result_t.SVM_FAILURE, imp)
        | Except.ok rs =>
          match a.import_name with
          | Except.error _ => Crash.ok (svm_result_t.SVM_FAILURE, imp)
          | Except.ok nm =>
            match a.namespc with
            | Except.error _ => Crash.ok (svm_result_t.SVM_FAILURE, imp)
            | Except.ok ns =>
              Crash.ok (svm_result_t.SVM_SUCCESS,
                { imp with funcs := imp.funcs
                    ++ [{ name := nm, namespc := ns, params := ps, returns := rs }] })
  else Crash.crash

/-- A sequence of registration attempts, stopping at the first crash. -/
def registerAll (imp : Imports) : List ImportArgs → Crash Imports
| [] => Crash.ok imp
| a :: rest =>
  match svm_import_func_new imp a with
  | Crash.crash => Crash.crash
  | Crash.ok (_, imp2) => registerAll imp2 rest

theorem import_func_new_len (imp : Imports) (a : ImportArgs) (r : svm_result_t)
    (imp2 : Imports) (h : svm_import_func_new imp a = Crash.ok (r, imp2)) :
    imp2.capacity = imp.capacity ∧ imp2.funcs.length ≤ imp.funcs.length + 1
    ∧ imp.funcs.length < imp.capacity := by
  unfold svm_import_func_new at h
  by_cases hcap : imp.funcs.length < imp.capacity
  · rw [if_pos hcap] at h
    by_cases henv : a.host_env_nonnull = false
    · rw [if_pos henv] at h
      cases h
      exact ⟨rfl, by omega, hcap⟩
    · rw [if_neg henv] at h
      cases hp : a.params with
      | error e =>
        rw [hp] at h
        cases h
        exact ⟨rfl, by omega, hcap⟩
      | ok ps =>
        rw [hp] at h
        cases hr : a.returns with
        | error e =>
          rw [hr] at h
          cases h
          exact ⟨rfl, by omega, hcap⟩
        | ok rs =>
          rw [hr] at h
          cases hn : a.import_name with
          | error e =>
            rw [hn] at h
            cases h
            exact ⟨rfl, by omega, hcap⟩
          | ok nm =>
            rw [hn] at h
            cases hs : a.namespc with
            | error e =>
              rw [hs] at h
              cases h
              exact ⟨rfl, by omega, hcap⟩
            | ok ns =>
              rw [hs] at h
              cases h
              refine ⟨rfl, ?_, hcap⟩
              simp
  · rw [if_neg hcap] at h
    exact Crash.noConfusion h

theorem registerAll_bound : ∀ (reqs : List ImportArgs) (imp imp2 : Imports),
    registerAll imp reqs = Crash.ok imp2 →
    imp.funcs.length ≤ imp.capacity →
    imp2.capacity = imp.capacity ∧ imp2.funcs.length ≤ imp.capacity
| [], imp, imp2, h, hle => by
  unfold registerAll at h
  cases h
  exact ⟨rfl, hle⟩
| a :: rest, imp, imp2, h, hle => by
  unfold registerAll at h
  cases hstep : svm_import_func_new imp a with
  | crash =>
    rw [hstep] at h
    exact Crash.noConfusion h
  | ok p =>
    obtain ⟨r, imp1⟩ := p
    rw [hstep] at h
    obtain ⟨hc, hl, hlt⟩ := import_func_new_len imp a r imp1 hstep
    obtain ⟨hc2, hl2⟩ := registerAll_bound rest imp1 imp2 h (by omega)
    exact ⟨by omega, by omega⟩

/-- C10: the imports table has a fixed capacity set at allocation.  Any
successful sequence of `svm_import_func_new` registrations starting from
`svm_imports_alloc count` holds at most `count` imports; a registration
attempt on a full table (length = capacity) crashes on the
`assert!(imports.len() < imports.capacity())` rather than returning
`SVM_FAILURE`; in particular any attempt after allocating with count 0
crashes. -/
theorem imports_capacity_assert (count : Nat) (reqs : List ImportArgs)
    (result : Imports) (a : ImportArgs)
    (h : registerAll (svm_imports_alloc count) reqs = Crash.ok result) :
    result.funcs.length ≤ count
    ∧ (∀ imp : Imports, ∀ a2 : ImportArgs, imp.funcs.length = imp.capacity →
        svm_import_func_new imp a2 = Crash.crash)
    ∧ svm_import_func_new (svm_imports_alloc 0) a = Crash.crash := by
  have hfull : ∀ imp : Imports, ∀ a2 : ImportArgs, imp.funcs.length = imp.capacity →
      svm_import_func_new imp a2 = Crash.crash := by
    intro imp a2 hfull
    unfold svm_import_func_new
    rw [if_neg (by omega)]
  obtain ⟨hc, hl⟩ := registerAll_bound reqs (svm_imports_alloc count) result h
    (by simp [svm_imports_alloc])
  refine ⟨?_, hfull, hfull (svm_imports_alloc 0) a (by simp [svm_imports_alloc])⟩
  simpa [svm_imports_alloc] using hl

/-- Witness for C10: allocating capacity 2 and registering one import
succeeds and stays within the bound; any attempt at capacity 0 crashes. -/
theorem imports_capacity_assert_witness :
    registerAll (svm_imports_alloc 2)
        [{ host_env_nonnull := true, params := Except.ok [], returns := Except.ok [],
           import_name := Except.ok [102], namespc := Except.ok [101] }]
      = Crash.ok { capacity := 2,
                   funcs := [{ name := [102], namespc := [101],
                               params := [], returns := [] }] }
    ∧ ({ capacity := 2,
         funcs := [{ name := [102], namespc := [101],
                     params := [], returns := [] }] } : Imports).funcs.length ≤ 2
    ∧ svm_import_func_new (svm_imports_alloc 0)
        { host_env_nonnull := true, params := Except.ok [], returns := Except.ok [],
          import_name := Except.ok [102], namespc := Except.ok [101] }
      = Crash.crash := by
  have hreg : registerAll (svm_imports_alloc 2)
      [{ host_env_nonnull := true, params := Except.ok [], returns := Except.ok [],
         import_name := Except.ok [102], namespc := Except.ok [101] }]
      = Crash.ok { capacity := 2,
                   funcs := [{ name := [102], namespc := [101],
                               params := [], returns := [] }] } := rfl
  have h := imports_capacity_assert 2
    [{ host_env_nonnull := true, params := Except.ok [], returns := Except.ok [],
       import_name := Except.ok [102], namespc := Except.ok [101] }]
    { capacity := 2,
      funcs := [{ name := [102], namespc := [101], params := [], returns := [] }] }
    { host_env_nonnull := true, params := Except.ok [], returns := Except.ok [],
      import_name := Except.ok [102], namespc := Except.ok [101] }
    hreg
  exact ⟨hreg, h.1, h.2.2⟩

end Api

namespace Vault

/-- `VaultType` (vault core). -/
inductive VaultType : Type
| Simple
| MultiSig
deriving DecidableEq, Repr

/-- The vault storage written by the constructor: the vault type and the
master accounts with their indices. -/
structure VaultState where
  ty : VaultType
  masters : List (List Nat × Nat)
deriving DecidableEq, Repr

/-- Outcome of contract code running inside the sandbox: a value, or a trap
that aborts the in-progress call (spec section 7, execution faults). -/
inductive ExecOutcome (α : Type) : Type
| ok (a : α)
| trap (msg : String)
deriving DecidableEq, Repr

/-- Modelled from the spec: the SDK `ensure!` macro (svm-sdk, not under the
shown sources) aborts the in-progress sandbox call with the given message
when the condition is false — an execution fault, per the spec's error
taxonomy. -/
def ensureSdk (cond : Bool) (msg : String) : ExecOutcome Unit :=
  if cond then ExecOutcome.ok () else ExecOutcome.trap msg

/-- `assert_not_same` (apps/vault/core/src/actions/initialize.rs):
`ensure!` that two master addresses differ, with the source's message. -/
def assert_not_same (addr1 addr2 : List Nat) : ExecOutcome Unit :=
  ensureSdk (addr1 != addr2) ("Master Keys must be different from one another.")

/-- `multisig_initialize` (apps/vault/core/src/actions/initialize.rs): the
three master addresses decoded from calldata are checked pairwise distinct
by `ensure!` guards, then the vault type and the three master accounts are
stored.  This code runs inside the sandbox while the spawn transaction's
constructor executes. -/
def multisig_initialize (masters : List Nat × List Nat × List Nat) :
    ExecOutcome VaultState :=
  match assert_not_same masters.1 masters.2.1 with
  | ExecOutcome.trap msg => ExecOutcome.trap msg
  | ExecOutcome.ok _ =>
    match assert_not_same masters.1 masters.2.2 with
    | ExecOutcome.trap msg => ExecOutcome.trap msg
    | ExecOutcome.ok _ =>
      match assert_not_same masters.2.1 masters.2.2 with
      | ExecOutcome.trap msg => ExecOutcome.trap msg
      | ExecOutcome.ok _ =>
        ExecOutcome.ok { ty := VaultType.MultiSig,
                         masters := [(masters.1, 1), (masters.2.1, 2), (masters.2.2, 3)] }

/-- Modelled from the spec: the runtime's spawn validation (not under the
shown sources) is a decode-only check that never touches storage and never
interprets the calldata blob (spec sections 4.7 and 7): a spawn transaction
is valid exactly when its wire bytes decode. -/
def validate_spawn (bytes : List Nat) : Bool :=
  match Codec.decode_spawn_app (Codec.toNibbles bytes) with
  | Except.ok _ => true
  | Except.error _ => false

set_option maxRecDepth 100000 in
/-- C7 counterexample: a concrete spawn transaction for a multisig vault
whose calldata carries three identical 20-byte master addresses (bytes
0xAA) passes decode-only validation, while the duplicate-address failure is
raised by the `ensure!` guard inside the constructor — during execution,
not validation. -/
theorem multisig_duplicate_not_validation_cex :
    validate_spawn (Codec.into_bytes (Codec.encode_spawn_app
      { app := { version := 0, name := [118], template := List.replicate 20 1 },
        ctor_name := [105, 110, 105, 116, 105, 97, 108, 105, 122, 101],
        calldata := List.replicate 60 170 })) = true
    ∧ multisig_initialize
        (List.replicate 20 170, List.replicate 20 170, List.replicate 20 170)
      = ExecOutcome.trap ("Master Keys must be different from one another.") := by
  exact ⟨by decide, by decide⟩

/-- C7 amended: a multisig spawn whose three master addresses are not
pairwise distinct fails during constructor execution — the `ensure!` guard
traps with the source's message — while decode-only validation accepts
every well-formed spawn transaction regardless of its calldata contents. -/
theorem multisig_duplicate_traps_execution (a b c : List Nat)
    (sp : Codec.SpawnApp) (hsp : Codec.WFSpawnApp sp)
    (hdup : a = b ∨ a = c ∨ b = c) :
    multisig_initialize (a, b, c)
      = ExecOutcome.trap ("Master Keys must be different from one another.")
    ∧ validate_spawn (Codec.into_bytes (Codec.encode_spawn_app sp)) = true := by
  constructor
  · unfold multisig_initialize assert_not_same ensureSdk
    by_cases h1 : a = b
    · simp [h1]
    · by_cases h2 : a = c
      · by_cases h4 : c = b <;> simp [h1, h2, h4]
      · have h3 : b = c := by tauto
        simp [h1, h2, h3]
  · unfold validate_spawn
    obtain ⟨pad, hpad, heq⟩ :=
      Codec.toNibbles_into_bytes _ (Codec.encode_spawn_app_lt sp hsp)
    rw [heq, Codec.decode_spawn_app_enc sp pad hsp.2.1.2.2 hsp.2.2.2.1.2.2 hsp.2.2.1.2]

/-- Witness for the amended C7: two equal master addresses trap, and the
concrete duplicate-masters spawn transaction passes validation. -/
theorem multisig_duplicate_traps_execution_witness :
    Codec.WFSpawnApp
      { app := { version := 0, name := [118], template := List.replicate 20 1 },
        ctor_name := [105, 110, 105, 116, 105, 97, 108, 105, 122, 101],
        calldata := List.replicate 60 170 }
    ∧ (List.replicate 20 170 = List.replicate 20 170
        ∨ List.replicate 20 170 = List.replicate 20 9
        ∨ List.replicate 20 170 = List.replicate 20 9)
    ∧ multisig_initialize
        (List.replicate 20 170, List.replicate 20 170, List.replicate 20 9)
      = ExecOutcome.trap ("Master Keys must be different from one another.")
    ∧ validate_spawn (Codec.into_bytes (Codec.encode_spawn_app
        { app := { version := 0, name := [118], template := List.replicate 20 1 },
          ctor_name := [105, 110, 105, 116, 105, 97, 108, 105, 122, 101],
          calldata := List.replicate 60 170 })) = true := by
  have h := multisig_duplicate_traps_execution
    (List.replicate 20 170) (List.replicate 20 170) (List.replicate 20 9)
    { app := { version := 0, name := [118], template := List.replicate 20 1 },
      ctor_name := [105, 110, 105, 116, 105, 97, 108, 105, 122, 101],
      calldata := List.replicate 60 170 }
    (by decide) (Or.inl rfl)
  exact ⟨by decide, Or.inl rfl, h.1, h.2⟩

end Vault
